import Mathlib

/-!
Verification of the shadow-mapping subsystem of the prisvector engine:
cascade split computation and projection stabilization
(`CascadedShadowMap.cpp`), the spot-shadow tile atlas (`ShadowAtlas.cpp`),
and the per-frame orchestration (`ShadowMapSystem.cpp`).

Float (`f32`) arithmetic on distances and matrices is idealised as exact
real (`ℝ`) or rational (`ℚ`) arithmetic; integer bookkeeping (tile indices,
frame counters, sizes) is embedded exactly over `ℕ`/`ℤ`.
-/

namespace Engine

/-- Number of CSM cascades: `constexpr u32 CSM_CASCADE_COUNT = 4` in
`ShadowTypes.hpp`. -/
def CSM_CASCADE_COUNT : ℕ := 4

/-- Maximum number of shadow-casting spot lights:
`constexpr u32 MAX_SHADOW_CASTING_SPOT = 16` in `ShadowTypes.hpp`. -/
def MAX_SHADOW_CASTING_SPOT : ℕ := 16

/-- The logarithmic split term of `CascadedShadowMap::CalculateCascadeSplits`:
`f32 logSplit = nearPlane * std::pow(maxDistance / nearPlane, p)` with
`p = i / CSM_CASCADE_COUNT` (float arithmetic idealised over `ℝ`,
`std::pow` idealised as real exponentiation). -/
noncomputable def logSplit (nearPlane maxDistance : ℝ) (i : ℕ) : ℝ :=
  nearPlane * (maxDistance / nearPlane) ^ ((i : ℝ) / (CSM_CASCADE_COUNT : ℝ))

/-- The linear split term of `CascadedShadowMap::CalculateCascadeSplits`:
`f32 linSplit = nearPlane + (maxDistance - nearPlane) * p`. -/
noncomputable def linSplit (nearPlane maxDistance : ℝ) (i : ℕ) : ℝ :=
  nearPlane + (maxDistance - nearPlane) * ((i : ℝ) / (CSM_CASCADE_COUNT : ℝ))

/-- `CascadedShadowMap::CalculateCascadeSplits`, entry `i` of
`m_SplitDistances` after the call: `m_SplitDistances[0] = nearPlane`, and for
`i = 1 .. CSM_CASCADE_COUNT` the code stores
`lambda * logSplit + (1.0f - lambda) * linSplit`. -/
noncomputable def calculateCascadeSplits (nearPlane maxDistance lambda : ℝ) (i : ℕ) : ℝ :=
  if i = 0 then nearPlane
  else lambda * logSplit nearPlane maxDistance i +
    (1 - lambda) * linSplit nearPlane maxDistance i

theorem calculateCascadeSplits_eq_blend (n m l : ℝ) (i : ℕ) :
    calculateCascadeSplits n m l i = l * logSplit n m i + (1 - l) * linSplit n m i := by
  rcases Nat.eq_zero_or_pos i with h0 | hpos
  · subst h0
    have hbase : calculateCascadeSplits n m l 0 = n := rfl
    rw [hbase]
    simp only [logSplit, linSplit, Nat.cast_zero, zero_div, Real.rpow_zero,
      mul_one, mul_zero, add_zero]
    ring
  · have hne : i ≠ 0 := Nat.pos_iff_ne_zero.mp hpos
    simp [calculateCascadeSplits, hne]

theorem logSplit_lt_logSplit (n m : ℝ) (hn : 0 < n) (hnm : n < m)
    {i j : ℕ} (hij : i < j) : logSplit n m i < logSplit n m j := by
  have hr : 1 < m / n := (one_lt_div hn).mpr hnm
  have hcast : (i : ℝ) < (j : ℝ) := by exact_mod_cast hij
  have hexp : (i : ℝ) / (CSM_CASCADE_COUNT : ℝ) < (j : ℝ) / (CSM_CASCADE_COUNT : ℝ) := by
    simp only [CSM_CASCADE_COUNT]
    push_cast
    linarith
  exact mul_lt_mul_of_pos_left (Real.rpow_lt_rpow_of_exponent_lt hr hexp) hn

theorem linSplit_lt_linSplit (n m : ℝ) (hnm : n < m)
    {i j : ℕ} (hij : i < j) : linSplit n m i < linSplit n m j := by
  have hcast : (i : ℝ) < (j : ℝ) := by exact_mod_cast hij
  have hexp : (i : ℝ) / (CSM_CASCADE_COUNT : ℝ) < (j : ℝ) / (CSM_CASCADE_COUNT : ℝ) := by
    simp only [CSM_CASCADE_COUNT]
    push_cast
    linarith
  have hmn : 0 < m - n := sub_pos.mpr hnm
  exact add_lt_add_left (mul_lt_mul_of_pos_left hexp hmn) n

theorem blend_lt_blend {a a' b b' l : ℝ} (ha : a < a') (hb : b < b')
    (h0 : 0 ≤ l) (h1 : l ≤ 1) :
    l * a + (1 - l) * b < l * a' + (1 - l) * b' := by
  rcases eq_or_lt_of_le h0 with h | h
  · rw [← h]
    simpa using hb
  · have h1' : 0 ≤ 1 - l := by linarith
    exact add_lt_add_of_lt_of_le (mul_lt_mul_of_pos_left ha h)
      (mul_le_mul_of_nonneg_left hb.le h1')

theorem calculateCascadeSplits_last (n m l : ℝ) (hn : 0 < n) :
    calculateCascadeSplits n m l CSM_CASCADE_COUNT = m := by
  have hne : n ≠ 0 := ne_of_gt hn
  have hcount : CSM_CASCADE_COUNT ≠ 0 := by simp [CSM_CASCADE_COUNT]
  simp only [calculateCascadeSplits, if_neg hcount, logSplit, linSplit]
  have hone : ((CSM_CASCADE_COUNT : ℕ) : ℝ) / ((CSM_CASCADE_COUNT : ℕ) : ℝ) = 1 := by
    simp [CSM_CASCADE_COUNT]
  rw [hone, Real.rpow_one, mul_div_cancel₀ _ hne]
  ring

/-- C1: for all `nearPlane`, `maxDistance`, `lambda` with
`maxDistance > nearPlane > 0` and `0 ≤ lambda ≤ 1`,
`CalculateCascadeSplits` produces `CSM_CASCADE_COUNT + 1 = 5` distances that
are strictly increasing, with `splits[0] = nearPlane` and
`splits[CSM_CASCADE_COUNT] = maxDistance`. -/
theorem C1_cascade_splits_strictly_increasing_and_bounded
    (nearPlane maxDistance lambda : ℝ)
    (hn : 0 < nearPlane) (hnm : nearPlane < maxDistance)
    (hl0 : 0 ≤ lambda) (hl1 : lambda ≤ 1) :
    (∀ i j : ℕ, i < j → j ≤ CSM_CASCADE_COUNT →
      calculateCascadeSplits nearPlane maxDistance lambda i <
        calculateCascadeSplits nearPlane maxDistance lambda j) ∧
    calculateCascadeSplits nearPlane maxDistance lambda 0 = nearPlane ∧
    calculateCascadeSplits nearPlane maxDistance lambda CSM_CASCADE_COUNT = maxDistance := by
  refine ⟨?_, rfl, calculateCascadeSplits_last _ _ _ hn⟩
  intro i j hij _
  rw [calculateCascadeSplits_eq_blend, calculateCascadeSplits_eq_blend]
  exact blend_lt_blend (logSplit_lt_logSplit _ _ hn hnm hij)
    (linSplit_lt_linSplit _ _ hnm hij) hl0 hl1

/-- Witness for C1 at `nearPlane = 1`, `maxDistance = 2`, `lambda = 1/2`. -/
theorem C1_cascade_splits_strictly_increasing_and_bounded_witness :
    (0:ℝ) < 1 ∧ (1:ℝ) < 2 ∧ (0:ℝ) ≤ 1/2 ∧ (1/2:ℝ) ≤ 1 ∧
    ((∀ i j : ℕ, i < j → j ≤ CSM_CASCADE_COUNT →
      calculateCascadeSplits 1 2 (1/2) i < calculateCascadeSplits 1 2 (1/2) j) ∧
    calculateCascadeSplits 1 2 (1/2) 0 = 1 ∧
    calculateCascadeSplits 1 2 (1/2) CSM_CASCADE_COUNT = 2) :=
  ⟨by norm_num, by norm_num, by norm_num, by norm_num,
    C1_cascade_splits_strictly_increasing_and_bounded 1 2 (1/2)
      (by norm_num) (by norm_num) (by norm_num) (by norm_num)⟩

/-- C6: `lambda = 0` yields exactly the pure linear scheme and `lambda = 1`
yields exactly the pure logarithmic scheme, for every split index (exact in
the real-number idealisation of the float arithmetic). -/
theorem C6_lambda_zero_linear_lambda_one_logarithmic
    (nearPlane maxDistance : ℝ) (i : ℕ) :
    calculateCascadeSplits nearPlane maxDistance 0 i = linSplit nearPlane maxDistance i ∧
    calculateCascadeSplits nearPlane maxDistance 1 i = logSplit nearPlane maxDistance i := by
  constructor
  · rw [calculateCascadeSplits_eq_blend]
    ring
  · rw [calculateCascadeSplits_eq_blend]
    ring

theorem rpow_sixteen_quarter : (16:ℝ) ^ ((1:ℝ)/4) = 2 := by
  have h : (16:ℝ) = (2:ℝ) ^ ((4:ℕ):ℝ) := by
    rw [Real.rpow_natCast]
    norm_num
  rw [h, ← Real.rpow_mul (by norm_num : (0:ℝ) ≤ 2)]
  have h4 : ((4:ℕ):ℝ) * ((1:ℝ)/4) = 1 := by norm_num
  rw [h4, Real.rpow_one]

/-- C5 counterexample: at `nearPlane = 1`, `maxDistance = 16`, `lambda = 0`,
`i = 1`, the code computes `lambda * logSplit + (1 - lambda) * linSplit
= linSplit_1 = 19/4`, while the claimed formula
`(1 - lambda) * logSplit + lambda * linSplit` evaluates to
`logSplit_1 = 16^(1/4) = 2`; the two differ. -/
theorem C5_counterexample :
    calculateCascadeSplits 1 16 0 1 ≠
      (1 - 0) * logSplit 1 16 1 + 0 * linSplit 1 16 1 := by
  have hc : ((1:ℕ):ℝ) / ((CSM_CASCADE_COUNT : ℕ):ℝ) = (1:ℝ)/4 := by
    simp [CSM_CASCADE_COUNT]
  have hL : calculateCascadeSplits 1 16 0 1 = linSplit 1 16 1 := by
    rw [calculateCascadeSplits_eq_blend]
    ring
  have hlin : linSplit 1 16 1 = 19/4 := by
    simp only [linSplit, hc]
    norm_num
  have hlog : logSplit 1 16 1 = 2 := by
    simp only [logSplit, hc, one_mul, div_one]
    exact rpow_sixteen_quarter
  rw [hL, hlin, hlog]
  norm_num

/-- C5 (amended): for `i` in `1..CSM_CASCADE_COUNT` the computed split `i`
equals `lambda * logSplit_i + (1 - lambda) * linSplit_i` (the roles of the
logarithmic and linear terms are swapped relative to the claim: the blend is
`lerp(linSplit_i, logSplit_i, lambda)`), and split `0` equals `nearPlane`. -/
theorem C5_amended_splits_blend_formula
    (nearPlane maxDistance lambda : ℝ) (i : ℕ) (_hi : 1 ≤ i) :
    calculateCascadeSplits nearPlane maxDistance lambda i =
      lambda * logSplit nearPlane maxDistance i +
        (1 - lambda) * linSplit nearPlane maxDistance i ∧
    calculateCascadeSplits nearPlane maxDistance lambda 0 = nearPlane := by
  exact ⟨calculateCascadeSplits_eq_blend _ _ _ _, rfl⟩

/-- Witness for the amended C5 at `nearPlane = 1`, `maxDistance = 16`,
`lambda = 0`, `i = 1`. -/
theorem C5_amended_splits_blend_formula_witness :
    (1:ℕ) ≤ 1 ∧
    (calculateCascadeSplits 1 16 0 1 =
        0 * logSplit 1 16 1 + (1 - 0) * linSplit 1 16 1 ∧
      calculateCascadeSplits 1 16 0 0 = 1) :=
  ⟨le_refl 1, C5_amended_splits_blend_formula 1 16 0 1 (le_refl 1)⟩

/-- C7 counterexample: with `nearPlane = 2`, `maxDistance = 1` (so
`maxDistance ≤ nearPlane`) and `lambda = 0`, the calculator applies no clamp:
`splits[1] = 7/4 < 2 = splits[0]`, so the returned distances are not
non-decreasing. -/
theorem C7_counterexample :
    (1:ℝ) ≤ 2 ∧ calculateCascadeSplits 2 1 0 1 < calculateCascadeSplits 2 1 0 0 := by
  constructor
  · norm_num
  · have h1 : calculateCascadeSplits 2 1 0 1 = linSplit 2 1 1 := by
      rw [calculateCascadeSplits_eq_blend]
      ring
    have h0 : calculateCascadeSplits 2 1 0 0 = 2 := rfl
    rw [h1, h0]
    simp only [linSplit, CSM_CASCADE_COUNT]
    norm_num

/-- C7 (amended): the calculator performs no clamping for
`maxDistance ≤ nearPlane`.  In the boundary case `maxDistance = nearPlane`
every returned split distance equals `nearPlane`, a well-defined degenerate
(constant, hence non-decreasing) cascade; for `maxDistance < nearPlane` the
split distances decrease instead of being non-decreasing. -/
theorem C7_amended_degenerate_equal_splits (nearPlane lambda : ℝ) (i : ℕ) :
    calculateCascadeSplits nearPlane nearPlane lambda i = nearPlane := by
  rcases Nat.eq_zero_or_pos i with h0 | hpos
  · subst h0
    rfl
  · rw [calculateCascadeSplits_eq_blend]
    rcases eq_or_ne nearPlane 0 with hz | hz
    · simp [logSplit, linSplit, hz]
    · simp only [logSplit, linSplit, div_self hz, Real.one_rpow, sub_self]
      ring

/-! ## Shadow atlas: `ShadowAtlas.cpp` and `ShadowTypes.hpp` -/

/-- `ShadowAtlasTile` from `ShadowTypes.hpp`: origin `(X, Y)`, `Size`,
owning `LightIndex` (`-1` = free) and `LastUsedFrame` for LRU eviction. -/
structure ShadowAtlasTile where
  X : ℕ
  Y : ℕ
  Size : ℕ
  LightIndex : ℤ
  LastUsedFrame : ℕ
deriving DecidableEq, Repr

/-- `ShadowAtlasTile::IsFree`: `LightIndex < 0`. -/
def ShadowAtlasTile.IsFree (t : ShadowAtlasTile) : Prop := t.LightIndex < 0

instance (t : ShadowAtlasTile) : Decidable t.IsFree :=
  inferInstanceAs (Decidable (t.LightIndex < 0))

/-- A 4-component vector of rationals, standing in for `glm::vec4`. -/
structure Vec4Q where
  x : ℚ
  y : ℚ
  z : ℚ
  w : ℚ
deriving DecidableEq, Repr

/-- `ShadowAtlasTile::GetScaleOffset`: `(scale, scale, offsetX, offsetY)`
with `scale = Size / atlasSize`, `offsetX = X / atlasSize`,
`offsetY = Y / atlasSize` (float division idealised over `ℚ`). -/
def ShadowAtlasTile.GetScaleOffset (t : ShadowAtlasTile) (atlasSize : ℕ) : Vec4Q :=
  let scale : ℚ := (t.Size : ℚ) / (atlasSize : ℚ)
  let offsetX : ℚ := (t.X : ℚ) / (atlasSize : ℚ)
  let offsetY : ℚ := (t.Y : ℚ) / (atlasSize : ℚ)
  ⟨scale, scale, offsetX, offsetY⟩

/-- The `static ShadowAtlasTile empty` returned by `ShadowAtlas::GetTile`
for an invalid index: default member values `X = Y = 0`, `Size = 0`,
`LightIndex = -1`, `LastUsedFrame = 0`. -/
def emptyShadowAtlasTile : ShadowAtlasTile := ⟨0, 0, 0, -1, 0⟩

/-- `constexpr u32 defaultTileSize = 512` in `ShadowAtlas::InitializeTiles`. -/
def defaultTileSize : ℕ := 512

/-- `ShadowAtlas::InitializeTiles`: a `tilesPerRow × tilesPerRow` grid of
free tiles of size `defaultTileSize`, `tilesPerRow = atlasSize / 512`,
pushed row by row (`y` outer, `x` inner). -/
def initializeTiles (atlasSize : ℕ) : List ShadowAtlasTile :=
  (List.range (atlasSize / defaultTileSize)).flatMap fun y =>
    (List.range (atlasSize / defaultTileSize)).map fun x =>
      ⟨x * defaultTileSize, y * defaultTileSize, defaultTileSize, -1, 0⟩

/-- The mutable state of a `ShadowAtlas` (GPU handles omitted):
`m_AtlasSize`, `m_CurrentFrame`, `m_Tiles`. -/
structure ShadowAtlas where
  AtlasSize : ℕ
  CurrentFrame : ℕ
  Tiles : List ShadowAtlasTile
deriving DecidableEq, Repr

/-- The `ShadowAtlas(atlasSize)` constructor: `m_CurrentFrame = 0` and
`InitializeTiles()`. -/
def mkShadowAtlas (atlasSize : ℕ) : ShadowAtlas :=
  ⟨atlasSize, 0, initializeTiles atlasSize⟩

/-- `ShadowAtlas::QuantizeTileSize`: round up to one of 256, 512, 1024. -/
def quantizeTileSize (size : ℕ) : ℕ :=
  if size ≤ 256 then 256 else if size ≤ 512 then 512 else 1024

/-- The scan loop of `ShadowAtlas::FindFreeTile`, carrying the running
index `i`: returns the first index whose tile is free with `Size ≥ size`,
else `-1`. -/
def findFreeTileAux (size : ℕ) : List ShadowAtlasTile → ℕ → ℤ
  | [], _ => -1
  | t :: ts, i => if t.IsFree ∧ size ≤ t.Size then (i : ℤ) else findFreeTileAux size ts (i + 1)

/-- `ShadowAtlas::FindFreeTile`. -/
def findFreeTile (tiles : List ShadowAtlasTile) (size : ℕ) : ℤ :=
  findFreeTileAux size tiles 0

/-- The scan loop of `ShadowAtlas::FindLRUTile`, carrying the running index
`i` and the accumulators `lruIndex` / `oldestFrame`: a tile is recorded when
`Size ≥ size` and `LastUsedFrame < oldestFrame` (strict). -/
def findLRUTileAux (size : ℕ) : List ShadowAtlasTile → ℕ → ℤ → ℕ → ℤ × ℕ
  | [], _, lruIndex, oldestFrame => (lruIndex, oldestFrame)
  | t :: ts, i, lruIndex, oldestFrame =>
    if size ≤ t.Size ∧ t.LastUsedFrame < oldestFrame then
      findLRUTileAux size ts (i + 1) (i : ℤ) t.LastUsedFrame
    else
      findLRUTileAux size ts (i + 1) lruIndex oldestFrame

/-- `ShadowAtlas::FindLRUTile`: accumulators start at
`lruIndex = -1`, `oldestFrame = m_CurrentFrame`. -/
def findLRUTile (tiles : List ShadowAtlasTile) (size : ℕ) (currentFrame : ℕ) : ℤ :=
  (findLRUTileAux size tiles 0 (-1) currentFrame).1

/-- `ShadowAtlas::FindOrEvictTile`: first a free tile, else LRU eviction. -/
def findOrEvictTile (a : ShadowAtlas) (size : ℕ) : ℤ :=
  if 0 ≤ findFreeTile a.Tiles size then findFreeTile a.Tiles size
  else findLRUTile a.Tiles size a.CurrentFrame

/-- In-place update `m_Tiles[i].LightIndex = lightIndex;
m_Tiles[i].LastUsedFrame = frame;` as a list update (no-op out of range). -/
def stampTile : List ShadowAtlasTile → ℕ → ℤ → ℕ → List ShadowAtlasTile
  | [], _, _, _ => []
  | t :: ts, 0, lightIndex, frame => { t with LightIndex := lightIndex, LastUsedFrame := frame } :: ts
  | t :: ts, i + 1, lightIndex, frame => t :: stampTile ts i lightIndex frame

/-- `ShadowAtlas::AllocateTile`: quantize, find-or-evict, and on success
stamp the tile with the light index and the current frame.  Returns the new
atlas state and the returned tile index (`-1` on failure). -/
def allocateTile (a : ShadowAtlas) (requestedSize : ℕ) (lightIndex : ℤ) : ShadowAtlas × ℤ :=
  let size := quantizeTileSize requestedSize
  let tileIndex := findOrEvictTile a size
  if tileIndex < 0 then (a, -1)
  else ({ a with Tiles := stampTile a.Tiles tileIndex.toNat lightIndex a.CurrentFrame }, tileIndex)

/-- `ShadowAtlas::FreeTile`: no-op for an out-of-range index, otherwise
resets `LightIndex = -1` and `LastUsedFrame = 0`. -/
def freeTile (a : ShadowAtlas) (tileIndex : ℤ) : ShadowAtlas :=
  if tileIndex < 0 ∨ (a.Tiles.length : ℤ) ≤ tileIndex then a
  else { a with Tiles := stampTile a.Tiles tileIndex.toNat (-1) 0 }

/-- `ShadowAtlas::FreeAllTiles`. -/
def freeAllTiles (a : ShadowAtlas) : ShadowAtlas :=
  { a with Tiles := a.Tiles.map fun t => { t with LightIndex := -1, LastUsedFrame := 0 } }

/-- `ShadowAtlas::BeginFrame`. -/
def beginFrame (a : ShadowAtlas) (frameNumber : ℕ) : ShadowAtlas :=
  { a with CurrentFrame := frameNumber }

/-- `ShadowAtlas::GetTileScaleOffset`: `vec4(0)` for an invalid index. -/
def getTileScaleOffset (a : ShadowAtlas) (tileIndex : ℤ) : Vec4Q :=
  if tileIndex < 0 ∨ (a.Tiles.length : ℤ) ≤ tileIndex then ⟨0, 0, 0, 0⟩
  else (a.Tiles.getD tileIndex.toNat emptyShadowAtlasTile).GetScaleOffset a.AtlasSize

/-- `ShadowAtlas::GetTile`: the static empty tile for an invalid index. -/
def getTile (a : ShadowAtlas) (tileIndex : ℤ) : ShadowAtlasTile :=
  if tileIndex < 0 ∨ (a.Tiles.length : ℤ) ≤ tileIndex then emptyShadowAtlasTile
  else a.Tiles.getD tileIndex.toNat emptyShadowAtlasTile

/-! ## Cascade info accessor: `CascadedShadowMap::GetCascadeInfo` -/

/-- A 4×4 rational matrix standing in for `glm::mat4` (column-major:
`M c r` is entry `m[c][r]`). -/
abbrev Mat4Q : Type := Fin 4 → Fin 4 → ℚ

def zeroMat4 : Mat4Q := fun _ _ => 0

/-- `CascadeInfo` from `ShadowTypes.hpp` (float data idealised over `ℚ`;
the `AABB WorldBounds` is its `Min`/`Max` pair). -/
structure CascadeInfo where
  ViewMatrix : Mat4Q
  ProjectionMatrix : Mat4Q
  ViewProjectionMatrix : Mat4Q
  SplitNear : ℚ
  SplitFar : ℚ
  WorldBoundsMin : Fin 3 → ℚ
  WorldBoundsMax : Fin 3 → ℚ

/-- The `static CascadeInfo empty` returned by
`CascadedShadowMap::GetCascadeInfo` on an out-of-range index:
static storage is zero-initialised (`AABB` members default to zero). -/
def emptyCascadeInfo : CascadeInfo :=
  ⟨zeroMat4, zeroMat4, zeroMat4, 0, 0, fun _ => 0, fun _ => 0⟩

/-- The per-cascade state of a `CascadedShadowMap`. -/
structure CascadedShadowMapState where
  Resolution : ℕ
  Cascades : Fin CSM_CASCADE_COUNT → CascadeInfo

/-- `CascadedShadowMap::GetCascadeInfo`: returns the static empty info when
`index ≥ CSM_CASCADE_COUNT`, else `m_Cascades[index]`. -/
def getCascadeInfo (c : CascadedShadowMapState) (index : ℕ) : CascadeInfo :=
  if h : index < CSM_CASCADE_COUNT then c.Cascades ⟨index, h⟩ else emptyCascadeInfo

/-- C10: the index-taking accessors are total: with an out-of-range tile
index, `FreeTile` is a no-op, `GetTileScaleOffset` returns the zero vector
and `GetTile` returns the default free tile; with a cascade index `≥ 4`,
`GetCascadeInfo` returns the default (zero) `CascadeInfo` instead of reading
out of bounds. -/
theorem C10_out_of_range_accessors_are_total_noops
    (a : ShadowAtlas) (tileIndex : ℤ) (c : CascadedShadowMapState) (index : ℕ)
    (hidx : tileIndex < 0 ∨ (a.Tiles.length : ℤ) ≤ tileIndex)
    (hcas : CSM_CASCADE_COUNT ≤ index) :
    freeTile a tileIndex = a ∧
    getTileScaleOffset a tileIndex = ⟨0, 0, 0, 0⟩ ∧
    getTile a tileIndex = emptyShadowAtlasTile ∧
    getCascadeInfo c index = emptyCascadeInfo := by
  refine ⟨?_, ?_, ?_, ?_⟩
  · unfold freeTile
    rw [if_pos hidx]
  · unfold getTileScaleOffset
    rw [if_pos hidx]
  · unfold getTile
    rw [if_pos hidx]
  · unfold getCascadeInfo
    rw [dif_neg (by omega)]

/-- Witness for C10 at the freshly constructed 1024-pixel atlas,
tile index `-1` and cascade index `4`. -/
theorem C10_out_of_range_accessors_are_total_noops_witness :
    ((-1 : ℤ) < 0 ∨ (((mkShadowAtlas 1024).Tiles.length : ℤ) ≤ -1)) ∧
    CSM_CASCADE_COUNT ≤ 4 ∧
    (freeTile (mkShadowAtlas 1024) (-1) = mkShadowAtlas 1024 ∧
      getTileScaleOffset (mkShadowAtlas 1024) (-1) = ⟨0, 0, 0, 0⟩ ∧
      getTile (mkShadowAtlas 1024) (-1) = emptyShadowAtlasTile ∧
      getCascadeInfo ⟨2048, fun _ => emptyCascadeInfo⟩ 4 = emptyCascadeInfo) :=
  ⟨Or.inl (by decide), by decide,
    C10_out_of_range_accessors_are_total_noops (mkShadowAtlas 1024) (-1)
      ⟨2048, fun _ => emptyCascadeInfo⟩ 4 (Or.inl (by decide)) (by decide)⟩

/-! ## C8: geometry of reachable atlas states -/

/-- The geometric footprint of a tile: `(X, Y, Size)`. -/
def tileGeom (t : ShadowAtlasTile) : ℕ × ℕ × ℕ := (t.X, t.Y, t.Size)

/-- Overlap of two axis-aligned squares given as `(X, Y, Size)` triples. -/
def geomOverlap (g h : ℕ × ℕ × ℕ) : Prop :=
  g.1 < h.1 + h.2.2 ∧ h.1 < g.1 + g.2.2 ∧ g.2.1 < h.2.1 + h.2.2 ∧ h.2.1 < g.2.1 + g.2.2

/-- Overlap of the screen-space rectangles of two tiles. -/
def tilesOverlap (t u : ShadowAtlasTile) : Prop := geomOverlap (tileGeom t) (tileGeom u)

instance (g h : ℕ × ℕ × ℕ) : Decidable (geomOverlap g h) :=
  inferInstanceAs (Decidable (_ < _ ∧ _ < _ ∧ _ < _ ∧ _ < _))

instance (t u : ShadowAtlasTile) : Decidable (tilesOverlap t u) :=
  inferInstanceAs (Decidable (geomOverlap _ _))

theorem tilesOverlap_symm {t u : ShadowAtlasTile} (h : tilesOverlap t u) :
    tilesOverlap u t := by
  unfold tilesOverlap geomOverlap at h ⊢
  obtain ⟨h1, h2, h3, h4⟩ := h
  exact ⟨h2, h1, h4, h3⟩

/-- One public mutating operation of the atlas, as listed in the claim. -/
inductive AtlasOp where
  | alloc (requestedSize : ℕ) (lightIndex : ℤ)
  | freeOne (tileIndex : ℤ)
  | freeAll
  | beginF (frameNumber : ℕ)

/-- Apply one operation to the atlas state (the tile index returned by
`AllocateTile` is discarded). -/
def applyAtlasOp (a : ShadowAtlas) : AtlasOp → ShadowAtlas
  | .alloc s l => (allocateTile a s l).1
  | .freeOne i => freeTile a i
  | .freeAll => freeAllTiles a
  | .beginF f => beginFrame a f

/-- Run a sequence of operations from a starting state. -/
def runAtlasOps (a : ShadowAtlas) (ops : List AtlasOp) : ShadowAtlas :=
  ops.foldl applyAtlasOp a

theorem map_tileGeom_stampTile (ts : List ShadowAtlasTile) (i : ℕ) (l : ℤ) (f : ℕ) :
    (stampTile ts i l f).map tileGeom = ts.map tileGeom := by
  induction ts generalizing i with
  | nil => rfl
  | cons t ts ih =>
    cases i with
    | zero => simp [stampTile, tileGeom]
    | succ n => simp [stampTile, ih]

theorem map_tileGeom_applyAtlasOp (a : ShadowAtlas) (op : AtlasOp) :
    (applyAtlasOp a op).Tiles.map tileGeom = a.Tiles.map tileGeom := by
  cases op with
  | alloc s l =>
    simp only [applyAtlasOp, allocateTile]
    by_cases h : findOrEvictTile a (quantizeTileSize s) < 0
    · simp [h]
    · simp [h, map_tileGeom_stampTile]
  | freeOne i =>
    simp only [applyAtlasOp, freeTile]
    by_cases h : i < 0 ∨ (a.Tiles.length : ℤ) ≤ i
    · simp [h]
    · simp [h, map_tileGeom_stampTile]
  | freeAll =>
    simp only [applyAtlasOp, freeAllTiles]
    rw [List.map_map]
    exact List.map_congr_left fun t _ => rfl
  | beginF f => rfl

theorem map_tileGeom_runAtlasOps (a : ShadowAtlas) (ops : List AtlasOp) :
    (runAtlasOps a ops).Tiles.map tileGeom = a.Tiles.map tileGeom := by
  induction ops generalizing a with
  | nil => rfl
  | cons op ops ih =>
    show (runAtlasOps (applyAtlasOp a op) ops).Tiles.map tileGeom = _
    rw [ih, map_tileGeom_applyAtlasOp]

theorem grid_tile_no_overlap (x y x' y' : ℕ) (h : x ≠ x' ∨ y ≠ y') :
    ¬ tilesOverlap ⟨x * defaultTileSize, y * defaultTileSize, defaultTileSize, -1, 0⟩
      ⟨x' * defaultTileSize, y' * defaultTileSize, defaultTileSize, -1, 0⟩ := by
  intro hov
  simp only [tilesOverlap, geomOverlap, tileGeom, defaultTileSize] at hov
  obtain ⟨h1, h2, h3, h4⟩ := hov
  rcases h with h | h
  · omega
  · omega

theorem initializeTiles_pairwise_no_overlap (atlasSize : ℕ) :
    (initializeTiles atlasSize).Pairwise fun t u => ¬ tilesOverlap t u := by
  unfold initializeTiles
  refine List.pairwise_flatMap.mpr ⟨?_, ?_⟩
  · intro y _
    rw [List.pairwise_map]
    refine (List.pairwise_lt_range _).imp ?_
    intro x x' hxx
    exact grid_tile_no_overlap x y x' y (Or.inl (Nat.ne_of_lt hxx))
  · refine (List.pairwise_lt_range _).imp ?_
    intro y y' hyy
    intro t ht u hu
    rw [List.mem_map] at ht hu
    obtain ⟨x, _, rfl⟩ := ht
    obtain ⟨x', _, rfl⟩ := hu
    exact grid_tile_no_overlap x y x' y' (Or.inr (Nat.ne_of_lt hyy))

theorem runAtlasOps_pairwise_no_overlap (atlasSize : ℕ) (ops : List AtlasOp) :
    (runAtlasOps (mkShadowAtlas atlasSize) ops).Tiles.Pairwise
      fun t u => ¬ tilesOverlap t u := by
  have hinit : ((initializeTiles atlasSize).map tileGeom).Pairwise
      fun g h => ¬ geomOverlap g h :=
    List.pairwise_map.mpr (initializeTiles_pairwise_no_overlap atlasSize)
  have h2 : ((runAtlasOps (mkShadowAtlas atlasSize) ops).Tiles.map tileGeom).Pairwise
      fun g h => ¬ geomOverlap g h := by
    rw [map_tileGeom_runAtlasOps]
    exact hinit
  exact List.pairwise_map.mp h2

/-- C8: in every atlas state reachable from construction by any sequence of
`AllocateTile`, `FreeTile`, `FreeAllTiles` and `BeginFrame` calls, the tile
positions and sizes are exactly those laid out by `InitializeTiles` (they
are never changed afterwards), and the `(X, Y, Size)` rectangles of any two
distinct tiles — in particular of any two distinct allocated tiles — do not
overlap.  Ownership is a single `LightIndex` field per tile, so a tile is
owned by at most one light at a time by construction. -/
theorem C8_reachable_atlas_tiles_never_move_and_never_overlap
    (atlasSize : ℕ) (ops : List AtlasOp) :
    (runAtlasOps (mkShadowAtlas atlasSize) ops).Tiles.map tileGeom
      = (initializeTiles atlasSize).map tileGeom ∧
    ∀ i j : Fin (runAtlasOps (mkShadowAtlas atlasSize) ops).Tiles.length,
      i ≠ j →
      ¬ tilesOverlap ((runAtlasOps (mkShadowAtlas atlasSize) ops).Tiles.get i)
        ((runAtlasOps (mkShadowAtlas atlasSize) ops).Tiles.get j) := by
  refine ⟨map_tileGeom_runAtlasOps _ _, ?_⟩
  have hp := runAtlasOps_pairwise_no_overlap atlasSize ops
  rw [List.pairwise_iff_get] at hp
  intro i j hij
  rcases hij.lt_or_lt with h | h
  · exact hp i j h
  · intro hov
    exact hp j i h (tilesOverlap_symm hov)

/-- Witness for C8 on a freshly constructed 1024-pixel atlas (4 tiles) with
the empty operation sequence, at tile indices 0 and 1. -/
theorem C8_reachable_atlas_tiles_never_move_and_never_overlap_witness :
    ((runAtlasOps (mkShadowAtlas 1024) []).Tiles.map tileGeom
      = (initializeTiles 1024).map tileGeom) ∧
    ¬ tilesOverlap ((runAtlasOps (mkShadowAtlas 1024) []).Tiles.get ⟨0, by decide⟩)
      ((runAtlasOps (mkShadowAtlas 1024) []).Tiles.get ⟨1, by decide⟩) :=
  ⟨(C8_reachable_atlas_tiles_never_move_and_never_overlap 1024 []).1,
    (C8_reachable_atlas_tiles_never_move_and_never_overlap 1024 []).2
      ⟨0, by decide⟩ ⟨1, by decide⟩ (by decide)⟩

/-! ## C2: allocation failure and LRU eviction -/

theorem getD_mem_of_lt {l : List ShadowAtlasTile} {k : ℕ} (h : k < l.length) :
    l.getD k emptyShadowAtlasTile ∈ l := by
  rw [List.getD_eq_getElem _ _ h]
  exact List.getElem_mem h

theorem findFreeTileAux_cases (size : ℕ) (ts : List ShadowAtlasTile) (i : ℕ) :
    findFreeTileAux size ts i = -1 ∨ 0 ≤ findFreeTileAux size ts i := by
  induction ts generalizing i with
  | nil => exact Or.inl rfl
  | cons t ts ih =>
    by_cases hc : t.IsFree ∧ size ≤ t.Size
    · right
      simp only [findFreeTileAux, if_pos hc]
      omega
    · simp only [findFreeTileAux, if_neg hc]
      exact ih (i + 1)

theorem findFreeTileAux_eq_neg_one_iff (size : ℕ) (ts : List ShadowAtlasTile) (i : ℕ) :
    findFreeTileAux size ts i = -1 ↔ ∀ t ∈ ts, ¬(t.IsFree ∧ size ≤ t.Size) := by
  induction ts generalizing i with
  | nil => simp [findFreeTileAux]
  | cons t ts ih =>
    by_cases hc : t.IsFree ∧ size ≤ t.Size
    · simp only [findFreeTileAux, if_pos hc]
      constructor
      · intro h
        exact absurd h (by omega)
      · intro h
        exact absurd hc (h t (List.mem_cons_self t ts))
    · simp only [findFreeTileAux, if_neg hc]
      rw [ih (i + 1), List.forall_mem_cons]
      constructor
      · intro h
        exact ⟨hc, h⟩
      · intro h
        exact h.2

/-- Characterisation of the `FindLRUTile` scan loop: either no tile of the
suffix beats the incoming `oldestFrame` and the accumulators pass through
unchanged, or the result points (relative to the incoming index `i`) at a
sufficient tile whose `LastUsedFrame` equals the resulting `oldestFrame`,
strictly below the incoming one and minimal among all sufficient tiles. -/
theorem findLRUTileAux_spec (size : ℕ) (ts : List ShadowAtlasTile) (i : ℕ)
    (lru : ℤ) (oldest : ℕ) :
    (findLRUTileAux size ts i lru oldest = (lru, oldest) ∧
      ∀ t ∈ ts, size ≤ t.Size → oldest ≤ t.LastUsedFrame) ∨
    (∃ k : ℕ, k < ts.length ∧
      (findLRUTileAux size ts i lru oldest).1 = ((i + k : ℕ) : ℤ) ∧
      size ≤ (ts.getD k emptyShadowAtlasTile).Size ∧
      (ts.getD k emptyShadowAtlasTile).LastUsedFrame
        = (findLRUTileAux size ts i lru oldest).2 ∧
      (findLRUTileAux size ts i lru oldest).2 < oldest ∧
      ∀ t ∈ ts, size ≤ t.Size →
        (findLRUTileAux size ts i lru oldest).2 ≤ t.LastUsedFrame) := by
  induction ts generalizing i lru oldest with
  | nil =>
    left
    exact ⟨rfl, by simp⟩
  | cons t ts ih =>
    by_cases hc : size ≤ t.Size ∧ t.LastUsedFrame < oldest
    · have hstep : findLRUTileAux size (t :: ts) i lru oldest
          = findLRUTileAux size ts (i + 1) (i : ℤ) t.LastUsedFrame := by
        simp only [findLRUTileAux, if_pos hc]
      rcases ih (i + 1) (i : ℤ) t.LastUsedFrame with ⟨heq, hall⟩ | ⟨k, hk, h1, h2, h3, h4, hall⟩
      · refine Or.inr ⟨0, by simp, ?_, ?_, ?_, ?_, ?_⟩
        · rw [hstep, heq]
          simp
        · simpa using hc.1
        · rw [hstep, heq]
          rfl
        · rw [hstep, heq]
          exact hc.2
        · intro u hu hsz
          rw [hstep, heq]
          rcases List.mem_cons.mp hu with rfl | hu'
          · exact le_refl _
          · exact hall u hu' hsz
      · refine Or.inr ⟨k + 1, by simpa using hk, ?_, ?_, ?_, ?_, ?_⟩
        · rw [hstep, h1]
          push_cast
          ring
        · simpa using h2
        · rw [hstep]
          simpa using h3
        · rw [hstep]
          exact lt_trans h4 hc.2
        · intro u hu hsz
          rw [hstep]
          rcases List.mem_cons.mp hu with rfl | hu'
          · exact le_of_lt h4
          · exact hall u hu' hsz
    · have hstep : findLRUTileAux size (t :: ts) i lru oldest
          = findLRUTileAux size ts (i + 1) lru oldest := by
        simp only [findLRUTileAux, if_neg hc]
      have hskip : size ≤ t.Size → oldest ≤ t.LastUsedFrame := by
        intro hsz
        by_contra hlt
        exact hc ⟨hsz, by omega⟩
      rcases ih (i + 1) lru oldest with ⟨heq, hall⟩ | ⟨k, hk, h1, h2, h3, h4, hall⟩
      · left
        refine ⟨by rw [hstep, heq], ?_⟩
        intro u hu hsz
        rcases List.mem_cons.mp hu with rfl | hu'
        · exact hskip hsz
        · exact hall u hu' hsz
      · refine Or.inr ⟨k + 1, by simpa using hk, ?_, ?_, ?_, ?_, ?_⟩
        · rw [hstep, h1]
          push_cast
          ring
        · simpa using h2
        · rw [hstep]
          simpa using h3
        · rw [hstep]
          exact h4
        · intro u hu hsz
          rw [hstep]
          rcases List.mem_cons.mp hu with rfl | hu'
          · exact le_trans (le_of_lt h4) (hskip hsz)
          · exact hall u hu' hsz

theorem findLRUTile_cases (tiles : List ShadowAtlasTile) (size currentFrame : ℕ) :
    findLRUTile tiles size currentFrame = -1 ∨ 0 ≤ findLRUTile tiles size currentFrame := by
  unfold findLRUTile
  rcases findLRUTileAux_spec size tiles 0 (-1) currentFrame with ⟨heq, _⟩ | ⟨k, _, h1, _⟩
  · left
    rw [heq]
  · right
    rw [h1]
    omega

theorem findLRUTile_eq_neg_one_iff (tiles : List ShadowAtlasTile) (size currentFrame : ℕ) :
    findLRUTile tiles size currentFrame = -1 ↔
      ∀ t ∈ tiles, size ≤ t.Size → currentFrame ≤ t.LastUsedFrame := by
  unfold findLRUTile
  rcases findLRUTileAux_spec size tiles 0 (-1) currentFrame
    with ⟨heq, hall⟩ | ⟨k, hk, h1, h2, h3, h4, _⟩
  · rw [heq]
    constructor
    · intro _
      exact hall
    · intro _
      rfl
  · rw [h1]
    constructor
    · intro h
      exact absurd h (by omega)
    · intro hall2
      have := hall2 _ (getD_mem_of_lt hk) h2
      omega

theorem findLRUTile_spec_found (tiles : List ShadowAtlasTile) (size currentFrame k : ℕ)
    (hk : findLRUTile tiles size currentFrame = (k : ℤ)) :
    k < tiles.length ∧
    size ≤ (tiles.getD k emptyShadowAtlasTile).Size ∧
    (tiles.getD k emptyShadowAtlasTile).LastUsedFrame < currentFrame ∧
    ∀ t ∈ tiles, size ≤ t.Size →
      (tiles.getD k emptyShadowAtlasTile).LastUsedFrame ≤ t.LastUsedFrame := by
  unfold findLRUTile at hk
  rcases findLRUTileAux_spec size tiles 0 (-1) currentFrame
    with ⟨heq, _⟩ | ⟨k', hk', h1, h2, h3, h4, hall⟩
  · rw [heq] at hk
    exact absurd hk (by omega)
  · rw [h1] at hk
    have hkk : k = k' := by omega
    subst hkk
    refine ⟨hk', h2, ?_, ?_⟩
    · rw [h3]
      exact h4
    · intro t ht hsz
      rw [h3]
      exact hall t ht hsz

theorem allocateTile_snd (a : ShadowAtlas) (s : ℕ) (li : ℤ) :
    (allocateTile a s li).2 =
      if findOrEvictTile a (quantizeTileSize s) < 0 then -1
      else findOrEvictTile a (quantizeTileSize s) := by
  unfold allocateTile
  by_cases h : findOrEvictTile a (quantizeTileSize s) < 0
  · simp [h]
  · simp [h]

/-- The concrete ShadowAtlas state of the C2 counterexample: a 1024-pixel
atlas (four 512-pixel tiles), `BeginFrame(1)`, then four successful
allocations that fill the atlas in frame 1. -/
def c2FullAtlas : ShadowAtlas :=
  runAtlasOps (mkShadowAtlas 1024)
    [.beginF 1, .alloc 512 0, .alloc 512 1, .alloc 512 2, .alloc 512 3]

/-- C2 counterexample: in `c2FullAtlas` every tile has sufficient size for a
512-pixel request and all tiles are allocated, yet `AllocateTile(512, 4)`
returns `-1`: `FindLRUTile` starts its scan at `oldestFrame = m_CurrentFrame`
with a strict comparison, so tiles last used in the current frame can never
be evicted and allocation fails despite sufficient tiles existing. -/
theorem C2_counterexample :
    (∀ t ∈ c2FullAtlas.Tiles, quantizeTileSize 512 ≤ t.Size ∧ ¬t.IsFree) ∧
    (allocateTile c2FullAtlas 512 4).2 = -1 := by
  decide

/-- C2 (amended): `AllocateTile(requestedSize, lightIndex)` returns `-1` if
and only if no tile of sufficient (quantized) size is free AND no tile of
sufficient size has `LastUsedFrame` strictly below the current frame.  When
the atlas has no free sufficient tile and the call succeeds, the returned
index is that of an allocated tile of sufficient size whose `LastUsedFrame`
is smaller than the current frame and minimal among all sufficient tiles —
the LRU tile is evicted.  (The original claim fails: a full atlas whose
tiles were all used in the current frame makes the call return `-1` even
though sufficient tiles exist.) -/
theorem C2_amended_allocate_fails_iff_no_free_and_no_stale
    (a : ShadowAtlas) (requestedSize : ℕ) (lightIndex : ℤ) :
    ((allocateTile a requestedSize lightIndex).2 = -1 ↔
      ((∀ t ∈ a.Tiles, ¬(t.IsFree ∧ quantizeTileSize requestedSize ≤ t.Size)) ∧
        (∀ t ∈ a.Tiles, quantizeTileSize requestedSize ≤ t.Size →
          a.CurrentFrame ≤ t.LastUsedFrame))) ∧
    ((∀ t ∈ a.Tiles, ¬(t.IsFree ∧ quantizeTileSize requestedSize ≤ t.Size)) →
      ∀ k : ℕ, (allocateTile a requestedSize lightIndex).2 = (k : ℤ) →
        k < a.Tiles.length ∧
        quantizeTileSize requestedSize ≤ (a.Tiles.getD k emptyShadowAtlasTile).Size ∧
        ¬(a.Tiles.getD k emptyShadowAtlasTile).IsFree ∧
        (a.Tiles.getD k emptyShadowAtlasTile).LastUsedFrame < a.CurrentFrame ∧
        (∀ t ∈ a.Tiles, quantizeTileSize requestedSize ≤ t.Size →
          (a.Tiles.getD k emptyShadowAtlasTile).LastUsedFrame ≤ t.LastUsedFrame)) := by
  constructor
  · rw [allocateTile_snd]
    unfold findOrEvictTile findFreeTile
    by_cases hf : 0 ≤ findFreeTileAux (quantizeTileSize requestedSize) a.Tiles 0
    · rw [if_pos hf, if_neg (by omega)]
      constructor
      · intro h
        exact absurd h (by omega)
      · rintro ⟨h1, _⟩
        have := (findFreeTileAux_eq_neg_one_iff (quantizeTileSize requestedSize) a.Tiles 0).mpr h1
        omega
    · have hfeq : findFreeTileAux (quantizeTileSize requestedSize) a.Tiles 0 = -1 := by
        rcases findFreeTileAux_cases (quantizeTileSize requestedSize) a.Tiles 0 with h | h
        · exact h
        · exact absurd h hf
      rw [if_neg hf]
      have hP1 : ∀ t ∈ a.Tiles, ¬(t.IsFree ∧ quantizeTileSize requestedSize ≤ t.Size) :=
        (findFreeTileAux_eq_neg_one_iff (quantizeTileSize requestedSize) a.Tiles 0).mp hfeq
      by_cases hl : findLRUTile a.Tiles (quantizeTileSize requestedSize) a.CurrentFrame < 0
      · have hleq : findLRUTile a.Tiles (quantizeTileSize requestedSize) a.CurrentFrame = -1 := by
          rcases findLRUTile_cases a.Tiles (quantizeTileSize requestedSize) a.CurrentFrame with h | h
          · exact h
          · omega
        rw [if_pos hl]
        constructor
        · intro _
          exact ⟨hP1, (findLRUTile_eq_neg_one_iff _ _ _).mp hleq⟩
        · intro _
          rfl
      · rw [if_neg hl]
        constructor
        · intro h
          exact absurd h (by omega)
        · rintro ⟨_, h2⟩
          have := (findLRUTile_eq_neg_one_iff a.Tiles (quantizeTileSize requestedSize)
            a.CurrentFrame).mpr h2
          omega
  · intro hfree k hk
    rw [allocateTile_snd] at hk
    unfold findOrEvictTile findFreeTile at hk
    have hfeq : findFreeTileAux (quantizeTileSize requestedSize) a.Tiles 0 = -1 :=
      (findFreeTileAux_eq_neg_one_iff _ _ _).mpr hfree
    rw [hfeq] at hk
    rw [if_neg (show ¬((0:ℤ) ≤ -1) by omega)] at hk
    by_cases hl : findLRUTile a.Tiles (quantizeTileSize requestedSize) a.CurrentFrame < 0
    · rw [if_pos hl] at hk
      exact absurd hk (by omega)
    · rw [if_neg hl] at hk
      obtain ⟨hlen, hsz, hframe, hmin⟩ :=
        findLRUTile_spec_found a.Tiles (quantizeTileSize requestedSize) a.CurrentFrame k hk
      refine ⟨hlen, hsz, ?_, hframe, hmin⟩
      intro hisfree
      exact hfree _ (getD_mem_of_lt hlen) ⟨hisfree, hsz⟩

/-- The C2 witness state: the full atlas of `c2FullAtlas` after
`BeginFrame(2)`; now every tile is stale and the next allocation evicts the
LRU tile (index 0). -/
def c2StaleAtlas : ShadowAtlas := beginFrame c2FullAtlas 2

/-- Witness for the amended C2: on `c2StaleAtlas` (no free sufficient tile),
`AllocateTile(512, 9)` returns index `0`, an allocated sufficient tile whose
`LastUsedFrame` is stale and minimal. -/
theorem C2_amended_allocate_fails_iff_no_free_and_no_stale_witness :
    (∀ t ∈ c2StaleAtlas.Tiles, ¬(t.IsFree ∧ quantizeTileSize 512 ≤ t.Size)) ∧
    (allocateTile c2StaleAtlas 512 9).2 = ((0 : ℕ) : ℤ) ∧
    ((0 : ℕ) < c2StaleAtlas.Tiles.length ∧
      quantizeTileSize 512 ≤ (c2StaleAtlas.Tiles.getD 0 emptyShadowAtlasTile).Size ∧
      ¬(c2StaleAtlas.Tiles.getD 0 emptyShadowAtlasTile).IsFree ∧
      (c2StaleAtlas.Tiles.getD 0 emptyShadowAtlasTile).LastUsedFrame < c2StaleAtlas.CurrentFrame ∧
      (∀ t ∈ c2StaleAtlas.Tiles, quantizeTileSize 512 ≤ t.Size →
        (c2StaleAtlas.Tiles.getD 0 emptyShadowAtlasTile).LastUsedFrame ≤ t.LastUsedFrame)) :=
  ⟨by decide, by decide,
    (C2_amended_allocate_fails_iff_no_free_and_no_stale c2StaleAtlas 512 9).2
      (by decide) 0 (by decide)⟩

/-! ## C4: `CascadedShadowMap::StabilizeProjection` -/

/-- The homogeneous point `vec4(0, 0, 0, 1)` (the world origin). -/
def vec0001 : Fin 4 → ℚ := ![0, 0, 0, 1]

/-- `glm` column-major matrix–vector product: `(M v)_r = Σ_c M[c][r] * v[c]`. -/
def mat4MulVec (M : Mat4Q) (v : Fin 4 → ℚ) : Fin 4 → ℚ :=
  fun r => ∑ c : Fin 4, M c r * v c

/-- The texel scale `resolution * 0.5f`. -/
def halfRes (resolution : ℕ) : ℚ := (resolution : ℚ) * (1/2)

/-- Component `r` of
`shadowOrigin = (lightViewProj * vec4(0,0,0,1)) * (resolution * 0.5)`. -/
def shadowOrigin (M : Mat4Q) (resolution : ℕ) (r : Fin 4) : ℚ :=
  mat4MulVec M vec0001 r * halfRes resolution

/-- The texel-snap offset `(round(shadowOrigin) - shadowOrigin) / (resolution * 0.5)`
applied per component (float `round` and division idealised over `ℚ`). -/
def snapOffset (M : Mat4Q) (resolution : ℕ) (r : Fin 4) : ℚ :=
  (((round (shadowOrigin M resolution r) : ℤ) : ℚ) - shadowOrigin M resolution r)
    / halfRes resolution

/-- `CascadedShadowMap::StabilizeProjection`: returns the input matrix with
`offset.x` added to entry `[3][0]` and `offset.y` added to entry `[3][1]`. -/
def stabilizeProjection (M : Mat4Q) (resolution : ℕ) : Mat4Q :=
  fun c r =>
    if c = 3 ∧ r = 0 then M c r + snapOffset M resolution 0
    else if c = 3 ∧ r = 1 then M c r + snapOffset M resolution 1
    else M c r

theorem mat4MulVec_vec0001 (A : Mat4Q) (r : Fin 4) : mat4MulVec A vec0001 r = A 3 r := by
  simp [mat4MulVec, vec0001, Fin.sum_univ_four]

theorem stabilizeProjection_entry_30 (A : Mat4Q) (resolution : ℕ) :
    stabilizeProjection A resolution 3 0 = A 3 0 + snapOffset A resolution 0 := by
  unfold stabilizeProjection
  rw [if_pos ⟨rfl, rfl⟩]

theorem stabilizeProjection_entry_31 (A : Mat4Q) (resolution : ℕ) :
    stabilizeProjection A resolution 3 1 = A 3 1 + snapOffset A resolution 1 := by
  unfold stabilizeProjection
  rw [if_neg (by decide), if_pos ⟨rfl, rfl⟩]

theorem stabilizeProjection_entry_other (A : Mat4Q) (resolution : ℕ) (c r : Fin 4)
    (h1 : ¬(c = 3 ∧ r = 0)) (h2 : ¬(c = 3 ∧ r = 1)) :
    stabilizeProjection A resolution c r = A c r := by
  unfold stabilizeProjection
  rw [if_neg h1, if_neg h2]

/-- C4: `StabilizeProjection` is idempotent — applying it twice with the
same resolution yields the same matrix as applying it once (exactly, in the
rational idealisation of the float arithmetic), so a stationary camera and
light produce the same stabilized view-projection matrix every frame. -/
theorem C4_stabilizeProjection_idempotent (M : Mat4Q) (resolution : ℕ) :
    stabilizeProjection (stabilizeProjection M resolution) resolution
      = stabilizeProjection M resolution := by
  by_cases hres : halfRes resolution = 0
  · have hid : ∀ A : Mat4Q, stabilizeProjection A resolution = A := by
      intro A
      funext c r
      unfold stabilizeProjection snapOffset
      rw [hres]
      simp
    rw [hid, hid]
  · have hoff : ∀ r : Fin 4,
        stabilizeProjection M resolution 3 r = M 3 r + snapOffset M resolution r →
        snapOffset (stabilizeProjection M resolution) resolution r = 0 := by
      intro r hr
      unfold snapOffset shadowOrigin
      rw [mat4MulVec_vec0001, hr]
      have hround : (M 3 r + snapOffset M resolution r) * halfRes resolution
          = ((round (M 3 r * halfRes resolution) : ℤ) : ℚ) := by
        unfold snapOffset shadowOrigin
        rw [mat4MulVec_vec0001, add_mul, div_mul_cancel₀ _ hres]
        ring
      rw [hround, round_intCast]
      simp
    have hz0 : snapOffset (stabilizeProjection M resolution) resolution 0 = 0 :=
      hoff 0 (stabilizeProjection_entry_30 M resolution)
    have hz1 : snapOffset (stabilizeProjection M resolution) resolution 1 = 0 :=
      hoff 1 (stabilizeProjection_entry_31 M resolution)
    funext c r
    by_cases h1 : c = 3 ∧ r = 0
    · obtain ⟨rfl, rfl⟩ := h1
      rw [stabilizeProjection_entry_30, hz0, add_zero]
    · by_cases h2 : c = 3 ∧ r = 1
      · obtain ⟨rfl, rfl⟩ := h2
        rw [stabilizeProjection_entry_31, hz1, add_zero]
      · rw [stabilizeProjection_entry_other _ _ _ _ h1 h2,
          stabilizeProjection_entry_other _ _ _ _ h1 h2]

/-! ## Per-frame orchestration: `ShadowMapSystem.cpp` -/

/-- The fields of `DirectionalLightComponent` consulted when
`RenderDirectionalShadows` selects the shadow-casting light. -/
structure DirLightEnt where
  Enabled : Bool
  CastShadows : Bool

/-- The fields of `SpotLightComponent` consulted by the spot loop's skip
condition `!light.Enabled || !light.CastShadows`. -/
structure SpotLightEnt where
  Enabled : Bool
  CastShadows : Bool

/-- The search for the first enabled, shadow-casting directional light in
`RenderDirectionalShadows`. -/
def directionalFound (lights : List DirLightEnt) : Bool :=
  lights.any fun l => l.Enabled && l.CastShadows

/-- The spot-light loop of `RenderSpotShadows`: breaks once
`m_SpotShadowCount ≥ MAX_SHADOW_CASTING_SPOT`, skips disabled or
non-casting lights, skips lights whose 512-pixel tile allocation fails, and
otherwise issues `perLightDraws count` depth draw calls (the casters
surviving the distance cull, taken as an input) and increments the count.
Returns the final atlas state, the recorded spot-shadow count and the total
number of draw calls issued. -/
def renderSpotShadowsLoop (atlas : ShadowAtlas) (lights : List SpotLightEnt)
    (count draws : ℕ) (perLightDraws : ℕ → ℕ) : ShadowAtlas × ℕ × ℕ :=
  match lights with
  | [] => (atlas, count, draws)
  | l :: ls =>
    if MAX_SHADOW_CASTING_SPOT ≤ count then (atlas, count, draws)
    else if ¬(l.Enabled ∧ l.CastShadows) then
      renderSpotShadowsLoop atlas ls count draws perLightDraws
    else if (allocateTile atlas 512 (count : ℤ)).2 < 0 then
      renderSpotShadowsLoop (allocateTile atlas 512 (count : ℤ)).1 ls count draws perLightDraws
    else
      renderSpotShadowsLoop (allocateTile atlas 512 (count : ℤ)).1 ls (count + 1)
        (draws + perLightDraws count) perLightDraws

/-- `RenderSpotShadows`: returns early when there is no gathered shadow
caster (the previous count is left untouched and nothing is drawn);
otherwise clears the data, resets the count to zero and runs the loop. -/
def renderSpotShadows (atlas : ShadowAtlas) (casterCount : ℕ)
    (lights : List SpotLightEnt) (prevCount : ℕ) (perLightDraws : ℕ → ℕ) :
    ShadowAtlas × ℕ × ℕ :=
  if casterCount = 0 then (atlas, prevCount, 0)
  else renderSpotShadowsLoop atlas lights 0 0 perLightDraws

/-- The observable outcome of `RenderDirectionalShadows`: the value of
`m_CSMData.ShadowParams.w` after the pass and the number of depth draw
calls.  In the degenerate branch (`!foundLight || m_ShadowCasters.empty()`)
it stores `0.0` (`// Disabled`) and draws nothing; otherwise it leaves the
previous value `prevW` in place and issues `dirPassDraws` draw calls
(casters surviving per-cascade AABB culling, taken as an input). -/
def renderDirectionalShadows (lights : List DirLightEnt) (casterCount : ℕ)
    (dirPassDraws : ℕ) (prevW : ℚ) : ℚ × ℕ :=
  if ¬(directionalFound lights = true) ∨ casterCount = 0 then (0, 0)
  else (prevW, dirPassDraws)

/-- `CascadedShadowMap::FillGPUData` stores
`ShadowParams = vec4(softness, maxDist, fadeStart, 1.0f)`: the `w`
component (the enabled flag) is unconditionally `1.0`. -/
def fillGPUDataShadowParamsW : ℚ := 1

/-- `UploadShadowData` uploads `ivec4(m_SpotShadowCount, 0, 0, 0)` as the
counts header. -/
def uploadShadowCountsHeader (spotShadowCount : ℕ) : ℤ × ℤ × ℤ × ℤ :=
  ((spotShadowCount : ℤ), 0, 0, 0)

/-- The per-frame inputs of `ShadowMapSystem::OnUpdate` that the claims
depend on. -/
structure FrameInput where
  Initialized : Bool
  HasCamera : Bool
  SettingsEnabled : Bool
  DirLights : List DirLightEnt
  SpotLights : List SpotLightEnt
  CasterCount : ℕ
  Atlas : ShadowAtlas
  FrameNumber : ℕ

/-- `ShadowMapSystem::OnUpdate` restricted to the observables of the
claims: the pair `(shadow draw calls issued, ShadowParams.w present in the
GPU uniform buffer after the frame)`.  On the early return
(`!m_Initialized || !m_Camera || !m_Settings.Enabled`) nothing is drawn or
uploaded, so the GPU flag keeps its previous value `prevGpuW`; otherwise
the frame ends in `UploadShadowData`, whose `FillGPUData` call overwrites
`m_CSMData.ShadowParams` — including the `0.0` stored by the degenerate
branch of `RenderDirectionalShadows` — with an enabled flag of `1.0`. -/
def onUpdateShadowMapSystem (input : FrameInput) (dirPassDraws : ℕ)
    (spotPerLightDraws : ℕ → ℕ) (prevGpuW prevCsmW : ℚ) (prevSpotCount : ℕ) :
    ℕ × ℚ :=
  if ¬(input.Initialized ∧ input.HasCamera ∧ input.SettingsEnabled) then
    (0, prevGpuW)
  else
    (((renderDirectionalShadows input.DirLights input.CasterCount dirPassDraws prevCsmW).2)
        + (renderSpotShadows (beginFrame input.Atlas (input.FrameNumber + 1))
            input.CasterCount input.SpotLights prevSpotCount spotPerLightDraws).2.2,
      fillGPUDataShadowParamsW)

/-- C3: evaluation at the failing input.  In a frame where shadows are
enabled, a camera is set and shadow casters exist but no enabled
shadow-casting light of any kind exists, `OnUpdate` issues no shadow draw
calls — but the enabled flag uploaded in the GPU shadow block is `1`, not
`0`: `RenderDirectionalShadows` stores `0.0` into
`m_CSMData.ShadowParams.w` (`// Disabled`), and `UploadShadowData` then
calls `FillGPUData`, which unconditionally overwrites `ShadowParams.w` with
`1.0` before the buffer upload. -/
theorem C3_no_light_frame_uploads_enabled_flag_one
    (dirPassDraws : ℕ) (spotPerLightDraws : ℕ → ℕ) (prevGpuW prevCsmW : ℚ)
    (prevSpotCount : ℕ) (atlas : ShadowAtlas) (frameNumber casterCount : ℕ) :
    onUpdateShadowMapSystem
        ⟨true, true, true, [⟨false, true⟩], [⟨true, false⟩],
          casterCount + 1, atlas, frameNumber⟩
        dirPassDraws spotPerLightDraws prevGpuW prevCsmW prevSpotCount
      = (0, 1) := by
  rfl

theorem renderSpotShadowsLoop_count_le (atlas : ShadowAtlas)
    (lights : List SpotLightEnt) (count draws : ℕ) (perLightDraws : ℕ → ℕ)
    (h : count ≤ MAX_SHADOW_CASTING_SPOT) :
    (renderSpotShadowsLoop atlas lights count draws perLightDraws).2.1
      ≤ MAX_SHADOW_CASTING_SPOT := by
  induction lights generalizing atlas count draws with
  | nil => simpa [renderSpotShadowsLoop] using h
  | cons l ls ih =>
    by_cases hc : MAX_SHADOW_CASTING_SPOT ≤ count
    · simp only [renderSpotShadowsLoop, if_pos hc]
      exact h
    · by_cases hq : ¬(l.Enabled ∧ l.CastShadows)
      · simp only [renderSpotShadowsLoop, if_neg hc, if_pos hq]
        exact ih _ _ _ h
      · simp only [renderSpotShadowsLoop, if_neg hc, if_neg hq]
        by_cases hr : (allocateTile atlas 512 (count : ℤ)).2 < 0
        · simp only [if_pos hr]
          exact ih _ _ _ h
        · simp only [if_neg hr]
          exact ih _ _ _ (by omega)

/-- C9: in every frame the recorded spot-shadow count and the uploaded
`ShadowCounts.x` header are at most `MAX_SHADOW_CASTING_SPOT = 16`; and in
a scene with 20 enabled shadow-casting spot lights, at least one shadow
caster and a fresh 4096-pixel atlas of 512-pixel tiles, exactly
`min(20, 16) = 16` spot shadows are recorded after one frame. -/
theorem C9_spot_shadow_count_capped_at_sixteen
    (atlas : ShadowAtlas) (casterCount : ℕ) (lights : List SpotLightEnt)
    (prevCount : ℕ) (perLightDraws : ℕ → ℕ)
    (hprev : prevCount ≤ MAX_SHADOW_CASTING_SPOT) :
    ((renderSpotShadows atlas casterCount lights prevCount perLightDraws).2.1
        ≤ MAX_SHADOW_CASTING_SPOT ∧
      (uploadShadowCountsHeader
          (renderSpotShadows atlas casterCount lights prevCount perLightDraws).2.1).1
        ≤ (MAX_SHADOW_CASTING_SPOT : ℤ)) ∧
    (renderSpotShadows (beginFrame (mkShadowAtlas 4096) 1) 1
        (List.replicate 20 ⟨true, true⟩) 0 perLightDraws).2.1
      = min 20 MAX_SHADOW_CASTING_SPOT := by
  have hcap : (renderSpotShadows atlas casterCount lights prevCount perLightDraws).2.1
      ≤ MAX_SHADOW_CASTING_SPOT := by
    unfold renderSpotShadows
    by_cases h0 : casterCount = 0
    · simp only [if_pos h0]
      exact hprev
    · simp only [if_neg h0]
      exact renderSpotShadowsLoop_count_le _ _ _ _ _ (by omega)
  refine ⟨⟨hcap, ?_⟩, ?_⟩
  · simp only [uploadShadowCountsHeader]
    exact_mod_cast hcap
  · rfl

/-- Witness for C9 with the scenario inputs themselves (previous count 0,
no draw calls per light). -/
theorem C9_spot_shadow_count_capped_at_sixteen_witness :
    (0 : ℕ) ≤ MAX_SHADOW_CASTING_SPOT ∧
    (((renderSpotShadows (beginFrame (mkShadowAtlas 4096) 1) 1
          (List.replicate 20 ⟨true, true⟩) 0 (fun _ => 0)).2.1
        ≤ MAX_SHADOW_CASTING_SPOT ∧
      (uploadShadowCountsHeader
          (renderSpotShadows (beginFrame (mkShadowAtlas 4096) 1) 1
            (List.replicate 20 ⟨true, true⟩) 0 (fun _ => 0)).2.1).1
        ≤ (MAX_SHADOW_CASTING_SPOT : ℤ)) ∧
    (renderSpotShadows (beginFrame (mkShadowAtlas 4096) 1) 1
        (List.replicate 20 ⟨true, true⟩) 0 (fun _ => 0)).2.1
      = min 20 MAX_SHADOW_CASTING_SPOT) :=
  ⟨by decide,
    C9_spot_shadow_count_capped_at_sixteen (beginFrame (mkShadowAtlas 4096) 1) 1
      (List.replicate 20 ⟨true, true⟩) 0 (fun _ => 0) (by decide)⟩

end Engine
